import Mathlib

/-!
Shallow embedding of the data-derivation and aggregation pipeline of the
wind-turbine analysis repository (source files `wind_analysis.py` and
`power_power_factor.py`).  Machine floats are modelled as rationals; the
only non-finite float behaviour the code relies on (division of a power
value by a zero AC power) is modelled explicitly by the `Eff` type.
`np.sqrt(3)` is an externally supplied constant of the numeric library, so
every definition that uses it takes it as an explicit parameter `s3`.
-/

namespace Wind

/-- Float-valued efficiency: pandas division by zero produces `inf`, `-inf`
or `NaN` rather than raising, so the `Efficiency` column is modelled by this
type. -/
inductive Eff where
  | fin (q : ℚ)
  | posInf
  | negInf
  | nan
deriving DecidableEq, Repr

/-- An efficiency value is finite when it carries a rational. -/
def Eff.isFinite : Eff → Bool
  | .fin _ => true
  | _ => false

/-- Numeric content of a finite efficiency value (0 for the non-finite
sentinels, which the proofs show never reach a mean). -/
def Eff.val : Eff → ℚ
  | .fin q => q
  | _ => 0

/-- Float comparison `e < c` as pandas evaluates it: `inf < c` and
`NaN < c` are false, `-inf < c` is true. -/
def Eff.ltc : Eff → ℚ → Bool
  | .fin q, c => decide (q < c)
  | .posInf, _ => false
  | .negInf, _ => true
  | .nan, _ => false

/-- The `Efficiency` column, `wind_analysis.py` line 41 and
`power_power_factor.py` line 10: `(Power_DC / Power_AC) * 100` under float
semantics.  When `Power_AC = 0` the float quotient is `inf`, `-inf` or
`NaN` according to the sign of `Power_DC`. -/
def efficiency (pdc pac : ℚ) : Eff :=
  if pac = 0 then
    if 0 < pdc then .posInf else if pdc < 0 then .negInf else .nan
  else .fin (pdc / pac * 100)

/-- One raw input row, with the columns the pipeline reads.  `TM` is the
time of day in seconds (its heterogeneous raw representations are modelled
separately by `TMVal`). -/
structure Row where
  Vdc : ℚ
  Idc : ℚ
  Euv : ℚ
  Evw : ℚ
  Ewu : ℚ
  Iu : ℚ
  Iv : ℚ
  Iw : ℚ
  WSD : ℚ
  TM : ℚ
  code1 : ℤ
deriving DecidableEq, Repr

/-- The `Power_DC` column, `wind_analysis.py` line 32 and
`power_power_factor.py` line 8: `Vdc * Idc / 1000`. -/
def power_dc (r : Row) : ℚ := r.Vdc * r.Idc / 1000

/-- The `Power_AC` column, `wind_analysis.py` line 33 and
`power_power_factor.py` line 9:
`((Euv*Iu + Evw*Iv + Ewu*Iw) / 3) * np.sqrt(3) / 1000`, with the library
constant `np.sqrt(3)` passed in as `s3`. -/
def power_ac (s3 : ℚ) (r : Row) : ℚ :=
  ((r.Euv * r.Iu + r.Evw * r.Iv + r.Ewu * r.Iw) / 3) * s3 / 1000

/-- Modelled from the spec (section 4.1): `power_dc = dc_voltage * dc_current / 1000`. -/
def spec_power_dc (dc_voltage dc_current : ℚ) : ℚ := dc_voltage * dc_current / 1000

/-- Modelled from the spec (section 4.1):
`power_ac = ((Euv*Iu + Evw*Iv + Ewu*Iw) / 3) * sqrt(3) / 1000`. -/
def spec_power_ac (sqrt3 euv evw ewu iu iv iw : ℚ) : ℚ :=
  ((euv * iu + evw * iv + ewu * iw) / 3) * sqrt3 / 1000

/-- The `calculate_power_coefficient` function, `wind_analysis.py`
lines 9-25: swept area `rotor_height * rotor_diameter`; wind speeds below
0.1 replaced by 0.1 (`np.where`); `cp = power_ac*1000/denominator` when the
denominator is positive, else 0; finally `np.clip(cp, 0, 0.593)`. -/
def calculate_power_coefficient
    (pac wind_speed air_density rotor_diameter rotor_height : ℚ) : ℚ :=
  let area := rotor_height * rotor_diameter
  let ws := if wind_speed < 1/10 then 1/10 else wind_speed
  let denominator := 1/2 * air_density * area * ws ^ 3
  let cp := if 0 < denominator then pac * 1000 / denominator else 0
  min (max cp 0) (593/1000)

/-- Modelled from the spec (section 4.1): `v = max(wind_speed, 0.1)`;
`area = rotor_height * rotor_diameter`; `denom = 0.5*air_density*area*v^3`;
`cp = power_ac*1000/denom` if `denom>0` else 0; final
`cp = clamp(cp, 0, 0.593)`. -/
def spec_power_coefficient
    (pac wind_speed air_density rotor_diameter rotor_height : ℚ) : ℚ :=
  let v := max wind_speed (1/10)
  let area := rotor_height * rotor_diameter
  let denom := 1/2 * air_density * area * v ^ 3
  let cp := if 0 < denom then pac * 1000 / denom else 0
  min (max cp 0) (593/1000)

/-- An enriched row of `wind_analysis.py` after `read_and_process_data`
(lines 27-51): the raw columns the downstream pipeline still reads plus the
derived `Power_DC`, `Power_AC`, `Efficiency` and `Cp` columns. -/
structure ERow where
  WSD : ℚ
  TM : ℚ
  code1 : ℤ
  Power_DC : ℚ
  Power_AC : ℚ
  Efficiency : Eff
  Cp : ℚ
deriving DecidableEq, Repr

/-- Row-wise content of `read_and_process_data` in `wind_analysis.py`
(lines 32-44). -/
def read_and_process_row (s3 air_density rotor_diameter rotor_height : ℚ)
    (r : Row) : ERow :=
  let pdc := power_dc r
  let pac := power_ac s3 r
  { WSD := r.WSD
    TM := r.TM
    code1 := r.code1
    Power_DC := pdc
    Power_AC := pac
    Efficiency := efficiency pdc pac
    Cp := calculate_power_coefficient pac r.WSD air_density rotor_diameter rotor_height }

/-- The enrichment step of `wind_analysis.py` applied to the whole table. -/
def read_and_process_data (s3 air_density rotor_diameter rotor_height : ℚ)
    (rows : List Row) : List ERow :=
  rows.map (read_and_process_row s3 air_density rotor_diameter rotor_height)

/-- An enriched row of `power_power_factor.py` after its
`read_and_process_data` (lines 6-15): no `Cp` column there. -/
structure PRow where
  WSD : ℚ
  TM : ℚ
  code1 : ℤ
  Power_DC : ℚ
  Power_AC : ℚ
  Efficiency : Eff
deriving DecidableEq, Repr

/-- Row-wise content of `read_and_process_data` in `power_power_factor.py`
(lines 8-10). -/
def p_read_and_process_row (s3 : ℚ) (r : Row) : PRow :=
  let pdc := power_dc r
  let pac := power_ac s3 r
  { WSD := r.WSD
    TM := r.TM
    code1 := r.code1
    Power_DC := pdc
    Power_AC := pac
    Efficiency := efficiency pdc pac }

/-- The enrichment step of `power_power_factor.py` applied to the whole
table. -/
def p_read_and_process_data (s3 : ℚ) (rows : List Row) : List PRow :=
  rows.map (p_read_and_process_row s3)

/-! ### Grouping infrastructure

`pandas` `groupby(key).agg(mean).reset_index()` emits one output row per
distinct key, sorted in ascending key order, each carrying the arithmetic
mean of the selected column over the rows with that key.  The model keeps
the list of distinct keys (first occurrence order), sorts it, and for each
key collects the matching values. -/

/-- Arithmetic mean of a list of rationals (`sum / length`; callers only
read it on nonempty lists, matching pandas, whose groups are nonempty). -/
def mean (l : List ℚ) : ℚ := l.sum / l.length

/-- Distinct elements of a list, keeping the first occurrence of each. -/
def dedupFirst {K : Type} [DecidableEq K] : List K → List K
  | [] => []
  | x :: xs => x :: (dedupFirst xs).filter (fun y => y ≠ x)

/-- Sort in ascending order (pandas sorts group keys ascending). -/
def sortAsc {K : Type} [LinearOrder K] (l : List K) : List K :=
  List.insertionSort (fun a b => a ≤ b) l

/-- The distinct group keys of a keyed list, in ascending order. -/
def bucketKeys {K α : Type} [LinearOrder K] [DecidableEq K]
    (ps : List (K × α)) : List K :=
  sortAsc (dedupFirst (ps.map Prod.fst))

/-- The values of the group with key `k`. -/
def bucketVals {K α : Type} [DecidableEq K] (ps : List (K × α)) (k : K) :
    List α :=
  (ps.filter (fun p => decide (p.1 = k))).map Prod.snd

/-! ### Rounding

`round(x*10)/10` (`wind_analysis.py` line 55), `Series.round(1)`
(`power_power_factor.py` line 20) and `Series.dt.round` all round half to
even (numpy / pandas nearest-half-even rounding). -/

/-- Round half to even: nearest integer, ties to the even one. -/
def rhe (q : ℚ) : ℤ :=
  if q - ⌊q⌋ < 1/2 then ⌊q⌋
  else if 1/2 < q - ⌊q⌋ then ⌊q⌋ + 1
  else if 2 ∣ ⌊q⌋ then ⌊q⌋ else ⌊q⌋ + 1

/-- Round to one decimal place, `round(x * 10) / 10` with half-even
rounding, as numpy computes both `round(x*10)/10` and `x.round(1)`. -/
def round1 (x : ℚ) : ℚ := (rhe (x * 10) : ℚ) / 10

/-- Round an instant (seconds) to the nearest minute, half to even, as
`Series.dt.round` with a one-minute frequency does; the result is the
rounded instant in seconds. -/
def minuteKey (t : ℚ) : ℤ := 60 * rhe (t / 60)

/-! ### Aggregations -/

/-- The `process_wind_speed_data` function of `wind_analysis.py`
(lines 53-61): key `round(WSD*10)/10` over ALL rows (no wind-speed filter),
then `groupby` with the means of `Power_DC`, `Power_AC` and `Cp`. -/
def process_wind_speed_data (rows : List ERow) : List (ℚ × ℚ × ℚ × ℚ) :=
  let ps := rows.map (fun r => (round1 r.WSD, r))
  (bucketKeys ps).map (fun k =>
    (k, mean ((bucketVals ps k).map (fun r => r.Power_DC)),
        mean ((bucketVals ps k).map (fun r => r.Power_AC)),
        mean ((bucketVals ps k).map (fun r => r.Cp))))

/-- The `process_wind_speed_data` function of `power_power_factor.py`
(lines 17-25): filter `WSD >= 3`, key `WSD.round(1)`, then `groupby` with
the means of `Power_DC` and `Power_AC`. -/
def p_process_wind_speed_data (rows : List PRow) : List (ℚ × ℚ × ℚ) :=
  let fr := rows.filter (fun r => decide (3 ≤ r.WSD))
  let ps := fr.map (fun r => (round1 r.WSD, r))
  (bucketKeys ps).map (fun k =>
    (k, mean ((bucketVals ps k).map (fun r => r.Power_DC)),
        mean ((bucketVals ps k).map (fun r => r.Power_AC))))

/-- The `process_time_data` function of `wind_analysis.py` (lines 62-96):
each time of day is combined with `datetime.today()` (here `today`, in
days), rounded to the nearest minute, and the table is grouped by that
minute with the means of `Power_DC`, `Power_AC`, `WSD` and `Cp`.  The key
is the rounded instant in seconds. -/
def process_time_data (today : ℤ) (rows : List ERow) :
    List (ℤ × ℚ × ℚ × ℚ × ℚ) :=
  let ps := rows.map (fun r => (minuteKey (86400 * today + r.TM), r))
  (bucketKeys ps).map (fun k =>
    (k, mean ((bucketVals ps k).map (fun r => r.Power_DC)),
        mean ((bucketVals ps k).map (fun r => r.Power_AC)),
        mean ((bucketVals ps k).map (fun r => r.WSD)),
        mean ((bucketVals ps k).map (fun r => r.Cp))))

/-- The `calculate_power_factors` function of `power_power_factor.py`
(lines 105-114): filter `WSD >= 3 and Power_DC > 0 and Power_AC > 0`, key
`np.floor(WSD)`, ratio `Power_DC / Power_AC`, drop ratios `>= 1`, then
`groupby` with the mean ratio. -/
def calculate_power_factors (rows : List PRow) : List (ℤ × ℚ) :=
  let fr := rows.filter
    (fun r => decide (3 ≤ r.WSD) && decide (0 < r.Power_DC) && decide (0 < r.Power_AC))
  let fr2 := fr.filter (fun r => decide (r.Power_DC / r.Power_AC < 1))
  let ps := fr2.map (fun r => ((⌊r.WSD⌋ : ℤ), r.Power_DC / r.Power_AC))
  (bucketKeys ps).map (fun k => (k, mean (bucketVals ps k)))

/-! ### Efficiency summary (`error_analysis` in `wind_analysis.py`,
lines 292-294) -/

/-- The filter `df[(df['Efficiency'] < 100) & (df['Power_AC'] > 0)]`. -/
def valid_rows (rows : List ERow) : List ERow :=
  rows.filter (fun r => r.Efficiency.ltc 100 && decide (0 < r.Power_AC))

/-- Average efficiency: the mean of the filtered `Efficiency` column when
it is nonempty, else 0 (`wind_analysis.py` line 294). -/
def avg_efficiency (rows : List ERow) : ℚ :=
  let v := (valid_rows rows).map (fun r => r.Efficiency)
  if 0 < v.length then (v.map Eff.val).sum / v.length else 0

/-! ### Status timeline (`find_error_time_ranges`, `wind_analysis.py`
lines 212-235) -/

/-- Loop state of `find_error_time_ranges`: the accumulated ranges in
append order, `current_code`, `start_time`, and the previous sample's
time (`times[i-1]` for the next iteration).  Python initialises
`current_code` and `start_time` to `None`, modelled by `Option`. -/
abbrev ERState := List (ℤ × Option ℚ × Option ℚ) × Option ℤ × Option ℚ × Option ℚ

/-- Close the open run: append `(current_code, (start_time, prev))` when
`current_code is not None and current_code != 16`. -/
def closeRange (ranges : List (ℤ × Option ℚ × Option ℚ)) (current : Option ℤ)
    (start prev : Option ℚ) : List (ℤ × Option ℚ × Option ℚ) :=
  match current with
  | some cc => if cc ≠ 16 then ranges ++ [(cc, start, prev)] else ranges
  | none => ranges

/-- One iteration of the loop in `find_error_time_ranges` on sample
`(time, code)`. -/
def ertrStep (st : ERState) (p : ℚ × ℤ) : ERState :=
  let ranges := st.1
  let current := st.2.1
  let start := st.2.2.1
  let prev := st.2.2.2
  if some p.2 ≠ current then
    let ranges2 := closeRange ranges current start prev
    let start2 := if p.2 ≠ 16 then some p.1 else start
    (ranges2, some p.2, start2, some p.1)
  else
    (ranges, current, start, some p.1)

/-- The `find_error_time_ranges` function: fold the loop over the
`(TM, CODE 1)` pairs in input order, then close the last open run using
the last sample's time (which the loop state carries as `prev`).  The
result is the `defaultdict` content flattened in append order. -/
def find_error_time_ranges (df : List (ℚ × ℤ)) :
    List (ℤ × Option ℚ × Option ℚ) :=
  let fin := df.foldl ertrStep ([], none, none, none)
  closeRange fin.1 fin.2.1 fin.2.2.1 fin.2.2.2

/-- View of the result as the mapping `code ↦ list of (start, end)`. -/
def error_ranges_for (df : List (ℚ × ℤ)) (code : ℤ) :
    List (Option ℚ × Option ℚ) :=
  ((find_error_time_ranges df).filter (fun e => decide (e.1 = code))).map
    (fun e => e.2)

/-- The status codes that appear as keys of the result. -/
def error_range_keys (df : List (ℚ × ℤ)) : List ℤ :=
  (find_error_time_ranges df).map (fun e => e.1)

/-! ### Status-code catalog (`error_codes` dictionary, identical in both
files); `Series.map` yields a missing value for unknown codes, modelled by
`Option`. -/

/-- The `error_codes` dictionary. -/
def error_codes (z : ℤ) : Option String :=
  if z = 1 then some "Generator overcurrent"
  else if z = 2 then some "Three-phase voltage imbalance"
  else if z = 3 then some "DC voltage output to the inverter is too high"
  else if z = 4 then some "DC current output to the inverter is too high"
  else if z = 5 then some "Overcurrent during motor operation"
  else if z = 6 then some "Motor circuit anomaly"
  else if z = 7 then some "Disk brake anomaly"
  else if z = 8 then some "Generator stator overheating"
  else if z = 9 then some "Dynamic unbalance in the wind turbine"
  else if z = 10 then some "Wind controller overheating"
  else if z = 11 then some "Warning from the internal ECU module of the wind controller"
  else if z = 12 then some "Brake command from the internal ECU module of the wind controller"
  else if z = 13 then some "Generator speed too high"
  else if z = 25 then some "Timer switch off"
  else if z = 26 then some "Oil system anomaly"
  else if z = 27 then some "Internal communication anomaly"
  else if z = 28 then some "Pneumatic brake failure"
  else if z = 29 then some "High wind speed"
  else if z = 30 then some "Generator over-speed (possible inverter issue)"
  else if z = 33 then some "Exceeded pushing limit within time"
  else if z = 34 then some "Disk brake needs replacement"
  else if z = 39 then some "Memory reset or battery failure"
  else if z = 40 then some "Add gearbox lubrication oil"
  else if z = 41 then some "No gearbox oil left"
  else if z = 44 then some "Generator mechanical fault"
  else if z = 45 then some "Brake caliper line pressure increase"
  else if z = 47 then some "Oil pressure motor overload protection"
  else if z = 0 then some "System in standby"
  else if z = 14 then some "Wind speed reaching turbine start-up speed"
  else if z = 15 then some "Waiting for turbine speed to reach boost circuit start-up speed"
  else if z = 16 then some "System generating power normally"
  else if z = 17 then some "No-load short brake"
  else if z = 18 then some "No-load long brake"
  else if z = 19 then some "No-load brake"
  else if z = 20 then some "No-load brake with generator output three-phase short circuit"
  else if z = 21 then some "Loaded short brake"
  else if z = 22 then some "Loaded long brake"
  else if z = 23 then some "Loaded brake"
  else if z = 24 then some "Loaded brake with generator output three-phase short circuit"
  else if z = 31 then some "Waiting for manual reset"
  else if z = 32 then some "Automatic reset"
  else if z = 42 then some "Manual stop, local forced stop"
  else if z = 43 then some "Remote stop"
  else if z = 46 then some "Cooling fan activated"
  else none

/-! ### Raw `TM` column handling (`wind_analysis.py` lines 46-48,
`power_power_factor.py` lines 12-13) -/

/-- A raw `TM` cell: either a string of the form `HH:MM:SS` (modelled by
its three numeric components) or an already-converted time of day in
seconds. -/
inductive TMVal where
  | str (h m s : ℕ)
  | tod (t : ℚ)
deriving DecidableEq, Repr

/-- The `isinstance(value, str)` test. -/
def TMVal.isStr : TMVal → Bool
  | .str _ _ _ => true
  | .tod _ => false

/-- Parsing one cell with `pd.to_datetime(value, format=HH:MM:SS).time`:
succeeds on a string, raises (here `none`) on anything else. -/
def parseHMS : TMVal → Option TMVal
  | .str h m s => some (.tod (3600 * h + 60 * m + s))
  | .tod _ => none

/-- The vectorised parse `pd.to_datetime(column, format=HH:MM:SS)`: every
cell is parsed, and one failing cell makes the whole conversion raise. -/
def parseAll : List TMVal → Option (List TMVal)
  | [] => some []
  | x :: xs =>
    match parseHMS x, parseAll xs with
    | some y, some ys => some (y :: ys)
    | _, _ => none

/-- The conversion step of `read_and_process_data`: look at the TYPE of
the first cell only (`df['TM'].iloc[0]`, raising on an empty table); when
it is a string, parse the whole column (any non-string cell makes the
vectorised parse raise); otherwise leave the column untouched. -/
def convert_tm (tms : List TMVal) : Option (List TMVal) :=
  match tms.head? with
  | none => none
  | some v => if v.isStr then parseAll tms else some tms

/-! ### Dataframe mutation model

The pipeline functions receive the caller's dataframe.  Column assignment
(`df[col] = ...`) on that object is visible to the caller, so each
function is modelled in state-passing style, returning the caller's frame
after the call next to its result.  `df = df[mask]` rebinds the local name
to a fresh filtered frame, so later assignments to it do not touch the
caller's frame; `df.copy()` likewise. -/

/-- The dataframe of `wind_analysis.py` as the caller holds it: the rows
plus the `WSD_rounded` column when it has been added. -/
structure WAFrame where
  rows : List ERow
  wsd_rounded : Option (List ℚ) := none
deriving DecidableEq, Repr

/-- The dataframe of `power_power_factor.py` as the caller holds it: the
rows plus the `Error Name` column when it has been added. -/
structure PFrame where
  rows : List PRow
  error_name : Option (List (Option String)) := none
deriving DecidableEq, Repr

/-- State-passing `process_wind_speed_data` of `wind_analysis.py`: line 55
assigns the `WSD_rounded` column on the caller's frame before grouping. -/
def process_wind_speed_data_m (df : WAFrame) :
    WAFrame × List (ℚ × ℚ × ℚ × ℚ) :=
  let df2 := { df with wsd_rounded := some (df.rows.map (fun r => round1 r.WSD)) }
  (df2, process_wind_speed_data df2.rows)

/-- State-passing `process_time_data` of `wind_analysis.py`: it works on
`df.copy()` (line 65), so the caller's frame is returned unchanged. -/
def process_time_data_m (today : ℤ) (df : WAFrame) :
    WAFrame × List (ℤ × ℚ × ℚ × ℚ × ℚ) :=
  (df, process_time_data today df.rows)

/-- State-passing `error_analysis` of `wind_analysis.py`: it only reads
the frame; the result is the average efficiency together with the error
time ranges that the analysis text reports. -/
def error_analysis_m (df : WAFrame) :
    WAFrame × ℚ × List (ℤ × Option ℚ × Option ℚ) :=
  (df, avg_efficiency df.rows,
    find_error_time_ranges (df.rows.map (fun r => (r.TM, r.code1))))

/-- State-passing `process_wind_speed_data` of `power_power_factor.py`:
line 18 rebinds `df` to the filtered copy, so the `WSD_rounded` assignment
on line 20 never reaches the caller's frame. -/
def p_process_wind_speed_data_m (df : PFrame) : PFrame × List (ℚ × ℚ × ℚ) :=
  (df, p_process_wind_speed_data df.rows)

/-- State-passing `calculate_power_factors` of `power_power_factor.py`:
line 106 rebinds `df` to the filtered copy, so the later column
assignments stay local. -/
def calculate_power_factors_m (df : PFrame) : PFrame × List (ℤ × ℚ) :=
  (df, calculate_power_factors df.rows)

/-- State-passing `error_analysis` of `power_power_factor.py`: line 101
assigns the `Error Name` column on the caller's frame; the result is the
deduplicated `(CODE 1, Error Name)` table (`drop_duplicates` keeps first
occurrences). -/
def p_error_analysis_m (df : PFrame) : PFrame × List (ℤ × Option String) :=
  let df2 := { df with error_name := some (df.rows.map (fun r => error_codes r.code1)) }
  (df2, dedupFirst (df2.rows.map (fun r => (r.code1, error_codes r.code1))))

/-- The value a successfully parsed `TM` cell ends up with. -/
def parseOk : TMVal → TMVal
  | .str h m s => .tod (3600 * h + 60 * m + s)
  | .tod t => .tod t

/-- A concrete enriched row used in witnesses and counterexamples. -/
def exampleERow (wsd tm : ℚ) : ERow :=
  { WSD := wsd, TM := tm, code1 := 16, Power_DC := 0, Power_AC := 0,
    Efficiency := .nan, Cp := 0 }

/-- A concrete enriched row of the second file used in witnesses. -/
def examplePRow (wsd pdc pac : ℚ) : PRow :=
  { WSD := wsd, TM := 0, code1 := 16, Power_DC := pdc, Power_AC := pac,
    Efficiency := efficiency pdc pac }

/-! ## Lemmas about the grouping infrastructure -/

theorem mem_dedupFirst {K : Type} [DecidableEq K] {l : List K} {a : K} :
    a ∈ dedupFirst l ↔ a ∈ l := by
  induction l with
  | nil => simp [dedupFirst]
  | cons x xs ih =>
    by_cases hax : a = x
    · subst hax
      simp [dedupFirst]
    · simp only [dedupFirst, List.mem_cons, List.mem_filter, ih, ne_eq,
        decide_eq_true_eq]
      constructor
      · rintro (h | ⟨h, _⟩)
        · exact Or.inl h
        · exact Or.inr h
      · rintro (h | h)
        · exact Or.inl h
        · exact Or.inr ⟨h, hax⟩

theorem nodup_dedupFirst {K : Type} [DecidableEq K] (l : List K) :
    (dedupFirst l).Nodup := by
  induction l with
  | nil => simp [dedupFirst]
  | cons x xs ih =>
    refine List.Nodup.cons ?_ (List.Nodup.filter _ ih)
    intro hx
    have := (List.mem_filter.mp hx).2
    simp at this

theorem mem_sortAsc {K : Type} [LinearOrder K] {l : List K} {a : K} :
    a ∈ sortAsc l ↔ a ∈ l :=
  List.mem_insertionSort _

theorem sorted_sortAsc {K : Type} [LinearOrder K] (l : List K) :
    (sortAsc l).Sorted (· ≤ ·) :=
  List.sorted_insertionSort _ l

theorem nodup_sortAsc {K : Type} [LinearOrder K] {l : List K} (h : l.Nodup) :
    (sortAsc l).Nodup :=
  ((List.perm_insertionSort _ l).nodup_iff).mpr h

theorem mem_bucketKeys {K α : Type} [LinearOrder K] {ps : List (K × α)}
    {k : K} : k ∈ bucketKeys ps ↔ k ∈ ps.map Prod.fst := by
  unfold bucketKeys
  rw [mem_sortAsc, mem_dedupFirst]

theorem sorted_bucketKeys {K α : Type} [LinearOrder K] (ps : List (K × α)) :
    (bucketKeys ps).Sorted (· < ·) :=
  (sorted_sortAsc _).lt_of_le (nodup_sortAsc (nodup_dedupFirst _))

theorem mem_bucketVals {K α : Type} [DecidableEq K] {ps : List (K × α)}
    {k : K} {a : α} : a ∈ bucketVals ps k ↔ ∃ p ∈ ps, p.1 = k ∧ p.2 = a := by
  unfold bucketVals
  simp only [List.mem_map, List.mem_filter, decide_eq_true_eq]
  constructor
  · rintro ⟨p, ⟨hp, hk⟩, ha⟩
    exact ⟨p, hp, hk, ha⟩
  · rintro ⟨p, hp, hk, ha⟩
    exact ⟨p, ⟨hp, hk⟩, ha⟩

theorem bucketVals_ne_nil {K α : Type} [LinearOrder K] {ps : List (K × α)}
    {k : K} (h : k ∈ bucketKeys ps) : bucketVals ps k ≠ [] := by
  rw [mem_bucketKeys] at h
  obtain ⟨p, hp, hk⟩ := List.mem_map.mp h
  intro hnil
  have : p.2 ∈ bucketVals ps k := mem_bucketVals.mpr ⟨p, hp, hk, rfl⟩
  rw [hnil] at this
  exact (List.not_mem_nil _) this

theorem bucketVals_map_self {K α : Type} [DecidableEq K] (key : α → K)
    (l : List α) (k : K) :
    bucketVals (l.map (fun a => (key a, a))) k
      = l.filter (fun a => decide (key a = k)) := by
  induction l with
  | nil => rfl
  | cons a l ih =>
    unfold bucketVals at ih ⊢
    by_cases hk : key a = k
    · simp [List.filter_cons, hk, ih]
    · simp [List.filter_cons, hk, ih]

theorem sum_lt_length {l : List ℚ} (hne : l ≠ []) (h : ∀ x ∈ l, x < 1) :
    l.sum < l.length := by
  induction l with
  | nil => exact absurd rfl hne
  | cons x xs ih =>
    have hx : x < 1 := h x (by simp)
    by_cases hxs : xs = []
    · subst hxs
      simpa using hx
    · have hxs2 : xs.sum < xs.length := ih hxs (fun y hy => h y (by simp [hy]))
      simp only [List.sum_cons, List.length_cons]
      push_cast
      linarith

theorem mean_lt_one {l : List ℚ} (hne : l ≠ []) (h : ∀ x ∈ l, x < 1) :
    mean l < 1 := by
  have hlen : 0 < l.length := List.length_pos.mpr hne
  have hlen2 : (0 : ℚ) < l.length := by exact_mod_cast hlen
  unfold mean
  rw [div_lt_one hlen2]
  exact sum_lt_length hne h

/-! ## Lemmas about half-even rounding and date shifts -/

theorem rhe_two_mul_add (m : ℤ) (q : ℚ) : rhe (2 * m + q) = 2 * m + rhe q := by
  have hcast : (2 : ℚ) * m + q = ((2 * m : ℤ) : ℚ) + q := by push_cast; ring
  unfold rhe
  rw [hcast, Int.floor_int_add]
  have hfr : ((2 * m : ℤ) : ℚ) + q - ((2 * m + ⌊q⌋ : ℤ) : ℚ) = q - (⌊q⌋ : ℚ) := by
    push_cast
    ring
  rw [hfr]
  have hdvd : (2 ∣ 2 * m + ⌊q⌋) ↔ 2 ∣ ⌊q⌋ := dvd_add_right ⟨m, rfl⟩
  simp only [hdvd]
  split_ifs <;> omega

theorem minuteKey_shift (d : ℤ) (t : ℚ) :
    minuteKey (86400 * d + t) = 86400 * d + minuteKey t := by
  have h : (86400 * (d : ℚ) + t) / 60 = 2 * ((720 * d : ℤ) : ℚ) + t / 60 := by
    push_cast
    ring
  unfold minuteKey
  rw [h, rhe_two_mul_add]
  ring

theorem filter_ne_map {K K2 : Type} [DecidableEq K] [DecidableEq K2]
    {f : K → K2} (hf : Function.Injective f) (x : K) (l : List K) :
    (l.map f).filter (fun y => y ≠ f x) = (l.filter (fun y => y ≠ x)).map f := by
  rw [List.filter_map]
  congr 1
  apply List.filter_congr
  intro a _
  simp only [Function.comp_apply]
  exact decide_eq_decide.mpr hf.ne_iff

theorem dedupFirst_map {K K2 : Type} [DecidableEq K] [DecidableEq K2]
    {f : K → K2} (hf : Function.Injective f) (l : List K) :
    dedupFirst (l.map f) = (dedupFirst l).map f := by
  induction l with
  | nil => rfl
  | cons x xs ih =>
    simp only [List.map_cons, dedupFirst, ih, List.map_cons]
    rw [filter_ne_map hf]

theorem sortAsc_map {K K2 : Type} [LinearOrder K] [LinearOrder K2]
    {f : K → K2} (hmono : ∀ a b : K, f a ≤ f b ↔ a ≤ b) (l : List K) :
    sortAsc (l.map f) = (sortAsc l).map f := by
  unfold sortAsc
  exact (List.map_insertionSort (fun a b : K => a ≤ b) (fun a b : K2 => a ≤ b)
    f l (fun a _ b _ => (hmono a b).symm)).symm

theorem bucketVals_map_key {K K2 α : Type} [DecidableEq K] [DecidableEq K2]
    {f : K → K2} (hf : Function.Injective f) (ps : List (K × α)) (k : K) :
    bucketVals (ps.map (fun p => (f p.1, p.2))) (f k) = bucketVals ps k := by
  unfold bucketVals
  rw [List.filter_map]
  have h1 : ((fun p : K2 × α => decide (p.1 = f k)) ∘ (fun p : K × α => (f p.1, p.2)))
      = fun p : K × α => decide (p.1 = k) := by
    funext p
    simp [hf.eq_iff]
  rw [h1, List.map_map]
  rfl

theorem bucketKeys_map_key {K K2 α : Type} [LinearOrder K] [LinearOrder K2]
    {f : K → K2} (hinj : Function.Injective f)
    (hmono : ∀ a b : K, f a ≤ f b ↔ a ≤ b) (ps : List (K × α)) :
    bucketKeys (ps.map (fun p => (f p.1, p.2))) = (bucketKeys ps).map f := by
  unfold bucketKeys
  rw [List.map_map]
  have h1 : (Prod.fst ∘ fun p : K × α => (f p.1, p.2)) = f ∘ Prod.fst := rfl
  rw [h1, ← List.map_map, dedupFirst_map hinj, sortAsc_map hmono]

theorem keyed_output_map {K K2 α β : Type} [LinearOrder K] [LinearOrder K2]
    {f : K → K2} (hinj : Function.Injective f)
    (hmono : ∀ a b : K, f a ≤ f b ↔ a ≤ b) (ps : List (K × α))
    (G : List α → β) :
    (bucketKeys (ps.map (fun p => (f p.1, p.2)))).map
        (fun k => (k, G (bucketVals (ps.map (fun p => (f p.1, p.2))) k)))
      = ((bucketKeys ps).map (fun k => (k, G (bucketVals ps k)))).map
          (fun e => (f e.1, e.2)) := by
  rw [bucketKeys_map_key hinj hmono]
  generalize bucketKeys ps = ks
  induction ks with
  | nil => rfl
  | cons a ks ih =>
    simp only [List.map_cons, List.cons.injEq]
    refine ⟨?_, ih⟩
    rw [bucketVals_map_key hinj]

/-! ## Lemmas about the status-timeline fold -/

theorem closeRange_keys {ranges : List (ℤ × Option ℚ × Option ℚ)}
    {cur : Option ℤ} {s p : Option ℚ}
    (h : 16 ∉ ranges.map (fun e => e.1)) :
    16 ∉ (closeRange ranges cur s p).map (fun e => e.1) := by
  cases cur with
  | none => exact h
  | some cc =>
    have hcr : closeRange ranges (some cc) s p
        = if cc ≠ 16 then ranges ++ [(cc, s, p)] else ranges := rfl
    rw [hcr]
    rcases eq_or_ne cc 16 with hc | hc
    · rw [if_neg (by simp [hc])]
      exact h
    · rw [if_pos hc, List.map_append]
      intro hm
      rcases List.mem_append.mp hm with hm | hm
      · exact h hm
      · simp only [List.map_cons, List.map_nil, List.mem_singleton] at hm
        exact hc hm.symm

theorem ertr_foldl_keys (df : List (ℚ × ℤ)) :
    ∀ st : ERState, 16 ∉ st.1.map (fun e => e.1) →
      16 ∉ (df.foldl ertrStep st).1.map (fun e => e.1) := by
  induction df with
  | nil => exact fun st h => h
  | cons q df ih =>
    intro st h
    rw [List.foldl_cons]
    apply ih
    unfold ertrStep
    by_cases hc : some q.2 ≠ st.2.1
    · rw [if_pos hc]
      exact closeRange_keys h
    · rw [if_neg hc]
      exact h

theorem ertrStep_16 (st : ERState) (q : ℚ × ℤ) (hq : q.2 = 16)
    (h1 : st.1 = []) (h2 : st.2.1 = none ∨ st.2.1 = some 16) :
    (ertrStep st q).1 = []
      ∧ ((ertrStep st q).2.1 = none ∨ (ertrStep st q).2.1 = some 16) := by
  obtain ⟨ranges, cur, s, p⟩ := st
  simp only at h1 h2
  subst h1
  rcases h2 with h | h <;> subst h <;> simp [ertrStep, closeRange, hq]

theorem ertr_foldl_16 (df : List (ℚ × ℤ)) : ∀ st : ERState,
    (∀ q ∈ df, q.2 = 16) → st.1 = [] →
    (st.2.1 = none ∨ st.2.1 = some 16) →
    (df.foldl ertrStep st).1 = []
      ∧ ((df.foldl ertrStep st).2.1 = none
          ∨ (df.foldl ertrStep st).2.1 = some 16) := by
  induction df with
  | nil => exact fun st _ h1 h2 => ⟨h1, h2⟩
  | cons q df ih =>
    intro st hall h1 h2
    rw [List.foldl_cons]
    have h := ertrStep_16 st q (hall q (by simp)) h1 h2
    exact ih _ (fun y hy => hall y (by simp [hy])) h.1 h.2

/-! ## Claims -/

/-- C1: for every input row, the derived DC power equals
`dc_voltage * dc_current / 1000` and the derived AC power equals
`((Euv*Iu + Evw*Iv + Ewu*Iw) / 3) * sqrt(3) / 1000` (the rational model is
exact, hence within any tolerance), as computed by `read_and_process_data`
in both source files. -/
theorem claim_C1 : ∀ (s3 air_density rotor_diameter rotor_height : ℚ) (r : Row),
    (read_and_process_row s3 air_density rotor_diameter rotor_height r).Power_DC
        = spec_power_dc r.Vdc r.Idc
    ∧ (read_and_process_row s3 air_density rotor_diameter rotor_height r).Power_AC
        = spec_power_ac s3 r.Euv r.Evw r.Ewu r.Iu r.Iv r.Iw
    ∧ (p_read_and_process_row s3 r).Power_DC = spec_power_dc r.Vdc r.Idc
    ∧ (p_read_and_process_row s3 r).Power_AC
        = spec_power_ac s3 r.Euv r.Evw r.Ewu r.Iu r.Iv r.Iw :=
  fun _ _ _ _ _ => ⟨rfl, rfl, rfl, rfl⟩

/-- C6: `calculate_power_coefficient` agrees with the spec formula
(`v = max(wind_speed, 0.1)`, `cp = power_ac*1000/denom` when `denom > 0`
else 0, clamped into `[0, 0.593]`), and its result lies in `[0, 0.593]`
for every input (in particular every finite non-negative one, including
`wind_speed = 0`). -/
theorem claim_C6 : ∀ (pac wind_speed air_density rotor_diameter rotor_height : ℚ),
    calculate_power_coefficient pac wind_speed air_density rotor_diameter rotor_height
        = spec_power_coefficient pac wind_speed air_density rotor_diameter rotor_height
    ∧ 0 ≤ calculate_power_coefficient pac wind_speed air_density rotor_diameter rotor_height
    ∧ calculate_power_coefficient pac wind_speed air_density rotor_diameter rotor_height
        ≤ 593 / 1000 := by
  intro pac ws rho dia ht
  refine ⟨?_, ?_, ?_⟩
  · simp only [calculate_power_coefficient, spec_power_coefficient]
    have hv : (if ws < 1/10 then (1 : ℚ)/10 else ws) = max ws (1/10) := by
      by_cases hws : ws < 1/10
      · rw [if_pos hws, max_eq_right hws.le]
      · rw [if_neg hws, max_eq_left (le_of_not_lt hws)]
    rw [hv]
  · simp only [calculate_power_coefficient]
    exact le_min (le_max_right _ _) (by norm_num)
  · simp only [calculate_power_coefficient]
    exact min_le_right _ _

/-- C5: an `Efficiency` value computed with `Power_AC = 0` is a defined
non-finite sentinel (never a finite value, in particular never 0); the
summary filter keeps exactly the rows with a float comparison
`Efficiency < 100` succeeding and `Power_AC > 0`, hence excludes every row
with `Power_AC = 0`; and on an input where every row is excluded the
reported average is 0 (the Lean model is total, so no exception can
occur). -/
theorem claim_C5 :
    (∀ pdc : ℚ, (efficiency pdc 0).isFinite = false)
    ∧ (∀ pdc q : ℚ, efficiency pdc 0 ≠ Eff.fin q)
    ∧ (∀ (rows : List ERow) (r : ERow), r ∈ valid_rows rows →
        r.Efficiency.ltc 100 = true ∧ 0 < r.Power_AC)
    ∧ (∀ (rows : List ERow) (r : ERow), r.Power_AC = 0 → r ∉ valid_rows rows)
    ∧ (∀ rows : List ERow, valid_rows rows = [] → avg_efficiency rows = 0) := by
  have hmem : ∀ (rows : List ERow) (r : ERow), r ∈ valid_rows rows →
      r.Efficiency.ltc 100 = true ∧ 0 < r.Power_AC := by
    intro rows r hr
    unfold valid_rows at hr
    have hb := (List.mem_filter.mp hr).2
    rw [Bool.and_eq_true] at hb
    exact ⟨hb.1, of_decide_eq_true hb.2⟩
  refine ⟨?_, ?_, hmem, ?_, ?_⟩
  · intro pdc
    unfold efficiency
    rw [if_pos rfl]
    split_ifs <;> rfl
  · intro pdc q
    unfold efficiency
    rw [if_pos rfl]
    split_ifs <;> intro h <;> exact Eff.noConfusion h
  · intro rows r hpac hr
    have h0 := (hmem rows r hr).2
    rw [hpac] at h0
    exact lt_irrefl 0 h0
  · intro rows hv
    unfold avg_efficiency
    simp [hv]

/-- Witness for C5 at concrete inputs: the empty table reports average 0,
and a concrete row with `Power_AC = 0` is excluded from the filter. -/
theorem claim_C5_witness :
    avg_efficiency [] = 0 ∧ exampleERow 1 0 ∉ valid_rows [exampleERow 1 0] :=
  ⟨claim_C5.2.2.2.2 [] rfl, claim_C5.2.2.2.1 [exampleERow 1 0] (exampleERow 1 0) rfl⟩

/-- C10: `read_and_process_data` decides whether to parse the `TM` column
solely from the type of its first element: when the first cell is a string
the whole column goes through the vectorised parse, when it is not no cell
is converted (so a mixed column with a non-string first cell stays mixed);
and on an all-string column every cell is parsed as `HH:MM:SS`. -/
theorem claim_C10 : ∀ (v : TMVal) (rest : List TMVal),
    (v.isStr = true → convert_tm (v :: rest) = parseAll (v :: rest))
    ∧ (v.isStr = false → convert_tm (v :: rest) = some (v :: rest))
    ∧ ((∀ x ∈ v :: rest, x.isStr = true) →
        convert_tm (v :: rest) = some ((v :: rest).map parseOk)) := by
  have hparse : ∀ l : List TMVal, (∀ x ∈ l, x.isStr = true) →
      parseAll l = some (l.map parseOk) := by
    intro l
    induction l with
    | nil => intro _; rfl
    | cons x xs ih =>
      intro hl
      have hx : x.isStr = true := hl x (by simp)
      cases x with
      | str hh mm ss =>
        have hxs := ih (fun y hy => hl y (by simp [hy]))
        simp [parseAll, hxs, parseHMS, parseOk]
      | tod t => simp [TMVal.isStr] at hx
  intro v rest
  refine ⟨?_, ?_, ?_⟩
  · intro hstr
    unfold convert_tm
    simp [hstr]
  · intro hstr
    unfold convert_tm
    simp [hstr]
  · intro hall
    have hstr := hall v (by simp)
    unfold convert_tm
    simp [hstr, hparse _ hall]

/-- Witness for C10 at a concrete mixed column whose first cell is not a
string: the column is returned untouched, the string cell unparsed. -/
theorem claim_C10_witness :
    convert_tm [TMVal.tod 5, TMVal.str 1 2 3]
      = some [TMVal.tod 5, TMVal.str 1 2 3] :=
  (claim_C10 (TMVal.tod 5) [TMVal.str 1 2 3]).2.1 rfl

/-- C9 counterexample: `process_wind_speed_data` in `wind_analysis.py`
adds the `WSD_rounded` column to the caller's dataframe, so after the call
the caller's frame differs from what it was before. -/
theorem claim_C9_cex :
    (process_wind_speed_data_m { rows := [exampleERow 1 0] }).1
      ≠ ({ rows := [exampleERow 1 0] } : WAFrame) := by
  decide

/-- C9 amended: `process_time_data` (works on a copy) and the
`error_analysis` of `wind_analysis.py` (read-only) leave the caller's
frame unchanged, as do `process_wind_speed_data` and
`calculate_power_factors` of `power_power_factor.py` (they rebind the
local name to a filtered copy before assigning columns); but
`process_wind_speed_data` of `wind_analysis.py` adds a `WSD_rounded`
column and `error_analysis` of `power_power_factor.py` adds an
`Error Name` column to the caller's frame (their row data stays
unchanged). -/
theorem claim_C9_amended : ∀ (today : ℤ) (df : WAFrame) (pf : PFrame),
    (process_time_data_m today df).1 = df
    ∧ (error_analysis_m df).1 = df
    ∧ (p_process_wind_speed_data_m pf).1 = pf
    ∧ (calculate_power_factors_m pf).1 = pf
    ∧ (process_wind_speed_data_m df).1.rows = df.rows
    ∧ (process_wind_speed_data_m df).1.wsd_rounded
        = some (df.rows.map (fun r => round1 r.WSD))
    ∧ (p_error_analysis_m pf).1.rows = pf.rows
    ∧ (p_error_analysis_m pf).1.error_name
        = some (pf.rows.map (fun r => error_codes r.code1)) :=
  fun _ _ _ => ⟨rfl, rfl, rfl, rfl, rfl, rfl, rfl, rfl⟩

/-- C2 counterexample: `process_wind_speed_data` in `wind_analysis.py`
applies no wind-speed filter, so a single sample with `wind_speed = 1`
(which is `< 3`) produces the bucket `1.0`. -/
theorem claim_C2_cex :
    (process_wind_speed_data [exampleERow 1 0]).map (fun e => e.1) = [(1 : ℚ)]
      ∧ (1 : ℚ) < 3 := by
  constructor
  · norm_num [process_wind_speed_data, bucketKeys, bucketVals, dedupFirst,
      sortAsc, exampleERow, mean, round1, rhe]
  · norm_num

/-- C8 counterexample: `process_time_data` combines each time of day with
`datetime.today()`, so the same input table produces different output on
different run dates — the pipeline output is not a function of the input
table and turbine constants alone. -/
theorem claim_C8_cex :
    process_time_data 1 [exampleERow 1 0] ≠ process_time_data 0 [exampleERow 1 0] := by
  have h1 : (process_time_data 1 [exampleERow 1 0]).map (fun e => e.1) = [86400] := by
    norm_num [process_time_data, bucketKeys, bucketVals, dedupFirst,
      sortAsc, exampleERow, mean, minuteKey, rhe]
  have h0 : (process_time_data 0 [exampleERow 1 0]).map (fun e => e.1) = [0] := by
    norm_num [process_time_data, bucketKeys, bucketVals, dedupFirst,
      sortAsc, exampleERow, mean, minuteKey, rhe]
  intro h
  rw [h, h0] at h1
  exact absurd h1 (by decide)

/-- C3: `find_error_time_ranges` maps each non-nominal status code to its
maximal contiguous runs: on codes `[16,16,5,5,16,3,3,3,16]` with
timestamps `t0..t8` it returns exactly the ranges `5 ↦ [(t2,t3)]` and
`3 ↦ [(t5,t7)]` (in that key order); code 16 never appears as a key for
any input; and an all-16 sequence yields an empty mapping. -/
theorem claim_C3 :
    (∀ t0 t1 t2 t3 t4 t5 t6 t7 t8 : ℚ,
      find_error_time_ranges
          [(t0, 16), (t1, 16), (t2, 5), (t3, 5), (t4, 16), (t5, 3), (t6, 3),
            (t7, 3), (t8, 16)]
        = [(5, some t2, some t3), (3, some t5, some t7)]
      ∧ error_ranges_for
          [(t0, 16), (t1, 16), (t2, 5), (t3, 5), (t4, 16), (t5, 3), (t6, 3),
            (t7, 3), (t8, 16)] 5 = [(some t2, some t3)]
      ∧ error_ranges_for
          [(t0, 16), (t1, 16), (t2, 5), (t3, 5), (t4, 16), (t5, 3), (t6, 3),
            (t7, 3), (t8, 16)] 3 = [(some t5, some t7)])
    ∧ (∀ df : List (ℚ × ℤ), (16 : ℤ) ∉ error_range_keys df)
    ∧ (∀ df : List (ℚ × ℤ), (∀ p ∈ df, p.2 = 16) →
        find_error_time_ranges df = []) := by
  refine ⟨fun t0 t1 t2 t3 t4 t5 t6 t7 t8 => ⟨rfl, rfl, rfl⟩, ?_, ?_⟩
  · intro df
    exact closeRange_keys
      (ertr_foldl_keys df ([], none, none, none) (by simp))
  · intro df hall
    obtain ⟨hr, hc⟩ :=
      ertr_foldl_16 df ([], none, none, none) hall rfl (Or.inl rfl)
    unfold find_error_time_ranges
    rcases hc with h | h <;> simp [closeRange, hr, h]

/-- Witness for C3 at concrete inputs: the example sequence with
timestamps `0..8`, and a concrete all-16 sequence yielding the empty
mapping. -/
theorem claim_C3_witness :
    find_error_time_ranges
        [(0, 16), (1, 16), (2, 5), (3, 5), (4, 16), (5, 3), (6, 3), (7, 3),
          (8, 16)]
      = [(5, some 2, some 3), (3, some 5, some 7)]
    ∧ find_error_time_ranges [(0, 16), (1, 16)] = [] :=
  ⟨(claim_C3.1 0 1 2 3 4 5 6 7 8).1,
    claim_C3.2.2 [(0, 16), (1, 16)] (by decide)⟩

/-- C4 counterexample: samples at `10:00:29` (36029 s) and `10:00:30.4`
(36030.4 s) do NOT round to the same minute — 30.4 s is above the half
minute, so pandas rounds it up — hence `process_time_data` puts them into
two buckets, while the claim says they fall into the same one. -/
theorem claim_C4_cex :
    (process_time_data 0 [exampleERow 0 36029, exampleERow 0 (180152/5)]).map
        (fun e => e.1) = [36000, 36060] := by
  norm_num [process_time_data, bucketKeys, bucketVals, dedupFirst,
    sortAsc, exampleERow, mean, minuteKey, rhe]

/-- C7: `calculate_power_factors` never emits a mean ratio `≥ 1`, and a
bucket exists exactly for the floors of the wind speeds of samples passing
all the filters (`wind_speed ≥ 3`, `power_dc > 0`, `power_ac > 0`, ratio
`< 1`) — so no sample with `power_dc ≤ 0` or `power_ac ≤ 0` ever
contributes. -/
theorem claim_C7 : ∀ rows : List PRow,
    (∀ e ∈ calculate_power_factors rows, e.2 < 1)
    ∧ (∀ k : ℤ,
        k ∈ (calculate_power_factors rows).map (fun e => e.1) ↔
          ∃ r ∈ rows, 3 ≤ r.WSD ∧ 0 < r.Power_DC ∧ 0 < r.Power_AC
            ∧ r.Power_DC / r.Power_AC < 1 ∧ ⌊r.WSD⌋ = k) := by
  intro rows
  constructor
  · intro e he
    unfold calculate_power_factors at he
    obtain ⟨k, hk, rfl⟩ := List.mem_map.mp he
    refine mean_lt_one (bucketVals_ne_nil hk) ?_
    intro x hx
    obtain ⟨p, hp, _, hpx⟩ := mem_bucketVals.mp hx
    obtain ⟨r, hr, rfl⟩ := List.mem_map.mp hp
    have hlt := (List.mem_filter.mp hr).2
    rw [← hpx]
    exact of_decide_eq_true hlt
  · intro k
    unfold calculate_power_factors
    rw [List.map_map]
    have hid : ((fun e : ℤ × ℚ => e.1) ∘ fun k => (k, mean (bucketVals
        (((rows.filter (fun r => decide (3 ≤ r.WSD) && decide (0 < r.Power_DC)
            && decide (0 < r.Power_AC))).filter
          (fun r => decide (r.Power_DC / r.Power_AC < 1))).map
            (fun r => ((⌊r.WSD⌋ : ℤ), r.Power_DC / r.Power_AC))) k)))
        = fun k : ℤ => k := rfl
    rw [hid, List.map_id', mem_bucketKeys, List.map_map]
    constructor
    · intro hk
      obtain ⟨r, hr, hrk⟩ := List.mem_map.mp hk
      obtain ⟨hr2, hlt⟩ := List.mem_filter.mp hr
      obtain ⟨hr3, hb⟩ := List.mem_filter.mp hr2
      rw [Bool.and_eq_true, Bool.and_eq_true] at hb
      exact ⟨r, hr3, of_decide_eq_true hb.1.1, of_decide_eq_true hb.1.2,
        of_decide_eq_true hb.2, of_decide_eq_true hlt, hrk⟩
    · rintro ⟨r, hr, h3, hdc, hac, hlt, hrk⟩
      refine List.mem_map.mpr ⟨r, ?_, hrk⟩
      refine List.mem_filter.mpr ⟨?_, by simpa using hlt⟩
      refine List.mem_filter.mpr ⟨hr, ?_⟩
      rw [Bool.and_eq_true, Bool.and_eq_true]
      exact ⟨⟨by simpa using h3, by simpa using hdc⟩, by simpa using hac⟩

/-- Witness for C7 at a concrete input: one sample with wind speed 3,
`power_dc = 1` and `power_ac = 2` produces the bucket `3` with mean ratio
`1/2 < 1`. -/
theorem claim_C7_witness : ((3 : ℤ), (1 : ℚ)/2).2 < 1 :=
  (claim_C7 [examplePRow 3 1 2]).1 ((3 : ℤ), (1 : ℚ)/2)
    (by norm_num [calculate_power_factors, bucketKeys, bucketVals, dedupFirst,
      sortAsc, examplePRow, mean])

theorem map_fst_of_keyed {K β : Type} (keys : List K) (F : K → β) (G : β → K)
    (h : ∀ k, G (F k) = k) : (keys.map F).map G = keys := by
  rw [List.map_map]
  have h2 : (G ∘ F) = fun k => k := funext h
  rw [h2, List.map_id']

/-- C2 amended: in `power_power_factor.py` the wind-speed aggregation
filters `wind_speed ≥ 3` (a bucket exists exactly for the `round(.,1)`
keys of samples passing the filter) and averages `power_dc` and
`power_ac`; in `wind_analysis.py` the power/Cp aggregation applies NO
wind-speed filter (a bucket exists for every sample's key, also below 3)
and averages `power_dc`, `power_ac` and `power_coefficient`; in both,
buckets with zero members are absent. -/
theorem claim_C2_amended : ∀ (prows : List PRow) (erows : List ERow),
    (∀ k : ℚ,
      k ∈ (p_process_wind_speed_data prows).map (fun e => e.1) ↔
        ∃ r ∈ prows, 3 ≤ r.WSD ∧ round1 r.WSD = k)
    ∧ (∀ e ∈ p_process_wind_speed_data prows,
        e.2.1 = mean (((prows.filter (fun r => decide (3 ≤ r.WSD))).filter
          (fun r => decide (round1 r.WSD = e.1))).map (fun r => r.Power_DC))
        ∧ e.2.2 = mean (((prows.filter (fun r => decide (3 ≤ r.WSD))).filter
          (fun r => decide (round1 r.WSD = e.1))).map (fun r => r.Power_AC)))
    ∧ (∀ k : ℚ,
      k ∈ (process_wind_speed_data erows).map (fun e => e.1) ↔
        ∃ r ∈ erows, round1 r.WSD = k)
    ∧ (∀ e ∈ process_wind_speed_data erows,
        e.2.1 = mean ((erows.filter
          (fun r => decide (round1 r.WSD = e.1))).map (fun r => r.Power_DC))
        ∧ e.2.2.1 = mean ((erows.filter
          (fun r => decide (round1 r.WSD = e.1))).map (fun r => r.Power_AC))
        ∧ e.2.2.2 = mean ((erows.filter
          (fun r => decide (round1 r.WSD = e.1))).map (fun r => r.Cp))) := by
  intro prows erows
  refine ⟨?_, ?_, ?_, ?_⟩
  · intro k
    unfold p_process_wind_speed_data
    rw [map_fst_of_keyed _ _ _ (fun k => rfl), mem_bucketKeys, List.map_map]
    constructor
    · intro hk
      obtain ⟨r, hr, hrk⟩ := List.mem_map.mp hk
      obtain ⟨hr2, h3⟩ := List.mem_filter.mp hr
      exact ⟨r, hr2, of_decide_eq_true h3, hrk⟩
    · rintro ⟨r, hr, h3, hrk⟩
      exact List.mem_map.mpr
        ⟨r, List.mem_filter.mpr ⟨hr, by simpa using h3⟩, hrk⟩
  · intro e he
    unfold p_process_wind_speed_data at he
    obtain ⟨k, hk, rfl⟩ := List.mem_map.mp he
    constructor
    · show mean ((bucketVals _ k).map (fun r : PRow => r.Power_DC)) = _
      rw [bucketVals_map_self]
    · show mean ((bucketVals _ k).map (fun r : PRow => r.Power_AC)) = _
      rw [bucketVals_map_self]
  · intro k
    unfold process_wind_speed_data
    rw [map_fst_of_keyed _ _ _ (fun k => rfl), mem_bucketKeys, List.map_map]
    constructor
    · intro hk
      obtain ⟨r, hr, hrk⟩ := List.mem_map.mp hk
      exact ⟨r, hr, hrk⟩
    · rintro ⟨r, hr, hrk⟩
      exact List.mem_map.mpr ⟨r, hr, hrk⟩
  · intro e he
    unfold process_wind_speed_data at he
    obtain ⟨k, hk, rfl⟩ := List.mem_map.mp he
    refine ⟨?_, ?_, ?_⟩
    · show mean ((bucketVals _ k).map (fun r : ERow => r.Power_DC)) = _
      rw [bucketVals_map_self]
    · show mean ((bucketVals _ k).map (fun r : ERow => r.Power_AC)) = _
      rw [bucketVals_map_self]
    · show mean ((bucketVals _ k).map (fun r : ERow => r.Cp)) = _
      rw [bucketVals_map_self]

/-- Witness for C2 amended at a concrete input: the aggregation of
`power_power_factor.py` on one sample with wind speed 3 emits the bucket
`3.0`. -/
theorem claim_C2_amended_witness :
    (3 : ℚ) ∈ (p_process_wind_speed_data [examplePRow 3 1 2]).map
      (fun e => e.1) :=
  ((claim_C2_amended [examplePRow 3 1 2] []).1 3).mpr
    ⟨examplePRow 3 1 2, by simp, by norm_num [examplePRow],
      by norm_num [examplePRow, round1, rhe]⟩

/-- C4 amended: `process_time_data` rounds each timestamp (combined with
the run date) to the nearest minute with ties going to the EVEN minute
(pandas half-even rounding, not half-up), groups by the rounded minute,
outputs the per-minute means of `Power_DC`, `Power_AC`, `WSD` and `Cp`,
and emits the groups in ascending minute order.  Concretely, `10:00:29`
rounds to `10:00` and `10:00:31` to `10:01` (different minutes), but
`10:00:30.4` also rounds to `10:01` (NOT the same minute as `10:00:29`),
and the exact tie `10:00:30` rounds DOWN to the even minute `10:00`
(half-up would give `10:01`). -/
theorem claim_C4_amended :
    (∀ (today : ℤ) (rows : List ERow),
        ((process_time_data today rows).map (fun e => e.1)).Sorted (· < ·))
    ∧ (∀ (today : ℤ) (rows : List ERow) (k : ℤ),
        k ∈ (process_time_data today rows).map (fun e => e.1) ↔
          ∃ r ∈ rows, minuteKey (86400 * today + r.TM) = k)
    ∧ (∀ (today : ℤ) (rows : List ERow), ∀ e ∈ process_time_data today rows,
        e.2.1 = mean ((rows.filter (fun r =>
            decide (minuteKey (86400 * today + r.TM) = e.1))).map
          (fun r : ERow => r.Power_DC))
        ∧ e.2.2.1 = mean ((rows.filter (fun r =>
            decide (minuteKey (86400 * today + r.TM) = e.1))).map
          (fun r : ERow => r.Power_AC))
        ∧ e.2.2.2.1 = mean ((rows.filter (fun r =>
            decide (minuteKey (86400 * today + r.TM) = e.1))).map
          (fun r : ERow => r.WSD))
        ∧ e.2.2.2.2 = mean ((rows.filter (fun r =>
            decide (minuteKey (86400 * today + r.TM) = e.1))).map
          (fun r : ERow => r.Cp)))
    ∧ (minuteKey 36029 = 36000 ∧ minuteKey 36031 = 36060
        ∧ minuteKey (180152/5) = 36060 ∧ minuteKey 36030 = 36000) := by
  refine ⟨?_, ?_, ?_, ?_, ?_, ?_, ?_⟩
  · intro today rows
    unfold process_time_data
    rw [map_fst_of_keyed _ _ _ (fun k => rfl)]
    exact sorted_bucketKeys _
  · intro today rows k
    have hkeys : (process_time_data today rows).map (fun e => e.1)
        = bucketKeys (rows.map (fun r => (minuteKey (86400 * today + r.TM), r))) :=
      map_fst_of_keyed _ _ _ (fun _ => rfl)
    rw [hkeys, mem_bucketKeys]
    constructor
    · intro hk
      obtain ⟨p, hp, hpk⟩ := List.mem_map.mp hk
      obtain ⟨r, hr, rfl⟩ := List.mem_map.mp hp
      exact ⟨r, hr, hpk⟩
    · rintro ⟨r, hr, hrk⟩
      exact List.mem_map.mpr
        ⟨(minuteKey (86400 * today + r.TM), r), List.mem_map.mpr ⟨r, hr, rfl⟩,
          hrk⟩
  · intro today rows e he
    unfold process_time_data at he
    obtain ⟨k, hk, rfl⟩ := List.mem_map.mp he
    refine ⟨?_, ?_, ?_, ?_⟩
    · show mean ((bucketVals _ k).map (fun r : ERow => r.Power_DC)) = _
      rw [bucketVals_map_self]
    · show mean ((bucketVals _ k).map (fun r : ERow => r.Power_AC)) = _
      rw [bucketVals_map_self]
    · show mean ((bucketVals _ k).map (fun r : ERow => r.WSD)) = _
      rw [bucketVals_map_self]
    · show mean ((bucketVals _ k).map (fun r : ERow => r.Cp)) = _
      rw [bucketVals_map_self]
  · norm_num [minuteKey, rhe]
  · norm_num [minuteKey, rhe]
  · norm_num [minuteKey, rhe]
  · norm_num [minuteKey, rhe]

/-- Witness for C4 amended at a concrete input: a single sample at
`10:00:29` produces the minute bucket `36000` (seconds). -/
theorem claim_C4_amended_witness :
    (36000 : ℤ) ∈ (process_time_data 0 [exampleERow 0 36029]).map
      (fun e => e.1) :=
  (claim_C4_amended.2.1 0 [exampleERow 0 36029] 36000).mpr
    ⟨exampleERow 0 36029, by simp, by norm_num [exampleERow, minuteKey, rhe]⟩

set_option maxHeartbeats 1000000 in
/-- C8 amended: the aggregations are pure functions of the input rows and
the turbine constants except `process_time_data`, which also depends on
the run date taken from `datetime.today()`: its output on day `d` is
exactly its day-0 output with every minute key shifted by `86400 * d`
seconds — the grouping and all per-bucket means are date-independent, so
two runs on the same day agree and runs on different days differ only by
the date offset in the minute keys. -/
theorem claim_C8_amended : ∀ (d : ℤ) (rows : List ERow),
    process_time_data d rows
      = (process_time_data 0 rows).map (fun e => (86400 * d + e.1, e.2)) := by
  intro d rows
  have hinj : Function.Injective (fun k : ℤ => 86400 * d + k) := by
    intro a b hab
    simpa using hab
  have hmono : ∀ a b : ℤ,
      (fun k : ℤ => 86400 * d + k) a ≤ (fun k : ℤ => 86400 * d + k) b ↔ a ≤ b := by
    intro a b
    simp
  have hps : rows.map (fun r => (minuteKey (86400 * (d : ℚ) + r.TM), r))
      = (rows.map (fun r => (minuteKey (86400 * ((0 : ℤ) : ℚ) + r.TM), r))).map
          (fun p => ((fun k : ℤ => 86400 * d + k) p.1, p.2)) := by
    rw [List.map_map]
    refine List.map_congr_left ?_
    intro r _
    simp only [Function.comp_apply]
    have h0 : (86400 * ((0 : ℤ) : ℚ) + r.TM) = r.TM := by push_cast; ring
    rw [h0, minuteKey_shift]
  have hmain := keyed_output_map hinj hmono
    (rows.map (fun r => (minuteKey (86400 * ((0 : ℤ) : ℚ) + r.TM), r)))
    (fun vals => (mean (vals.map (fun r : ERow => r.Power_DC)),
      mean (vals.map (fun r : ERow => r.Power_AC)),
      mean (vals.map (fun r : ERow => r.WSD)),
      mean (vals.map (fun r : ERow => r.Cp))))
  rw [← hps] at hmain
  exact hmain

end Wind
